import Mathlib

/-!
Verification of the document-processing pipeline (Monehin/IDP-AWS).

This file shallowly embeds the coordination core of the repository:

* the Document Record Store (one DynamoDB table, key `documentId`;
  `PutItem` replaces a whole item, `UpdateItem` upserts individual
  attributes) as an association list from document ids to items;
* the Extraction Worker (`lambda/processing-handler/index.ts`, which has no
  idempotency read, and the variant in the repository that performs a
  `GetItem` idempotency check before marking `PROCESSING`; the two share
  all remaining code), parameterised by the boolean `check`;
* the Ingestion Gatekeeper (`lambda/s3-event-handler/index.ts`,
  `processRecord`) together with the store helper functions
  (`checkIfDocumentExists`, `putNewDocumentRecord`, `sendMessageToSQS`);
* the Queue Consumer (`lambda/queue-processing-handler/index.ts`);
* a sequential trace semantics interleaving gatekeeper and worker
  invocations against the shared store, recording every durable status
  write.

External service calls (S3, Textract, Comprehend, DynamoDB transport) are
resolved by explicit oracles (`WorkerDeps`, `GkDeps`): each call either
returns a value or throws with an optional error message, exactly mirroring
the `try`/`catch` structure of the TypeScript handlers.
-/

namespace IDP

/-- One Textract `Block`: only `BlockType` and `Text` are consulted by the
pipeline (`block.BlockType === "LINE"`, `block.Text || ""`). -/
structure Block where
  blockType : Option String := none
  text : Option String := none
deriving DecidableEq

/-- The Textract `AnalyzeDocument` response, reduced to the `Blocks` field,
which is the only field the worker reads (it stores the whole response
opaquely). -/
structure TextractResult where
  blocks : Option (List Block) := none
deriving DecidableEq

/-- A document record item in the DynamoDB table.  `documentId` is the table
key and lives outside the item in our encoding.  String-serialised payloads
(`JSON.stringify(textractResult)`, `JSON.stringify(result.Entities)`) are
represented by the serialised values themselves. -/
structure Item where
  s3Key : Option String := none
  status : Option String := none
  uploadTime : Option String := none
  processedTime : Option String := none
  textractData : Option TextractResult := none
  comprehendEntities : Option String := none
  errorMessage : Option String := none
deriving DecidableEq

/-- The DynamoDB table: association list from `documentId` to the item. -/
abbrev Table := List (String × Item)

/-- `GetItem`. -/
def getItem (t : Table) (documentId : String) : Option Item :=
  match t with
  | [] => none
  | (k, it) :: rest => if k = documentId then some it else getItem rest documentId

/-- `PutItem`: unconditional whole-item replace (insert if absent).  The
repository's `PutItemCommand`s carry no `ConditionExpression`. -/
def putItem (t : Table) (documentId : String) (it : Item) : Table :=
  match t with
  | [] => [(documentId, it)]
  | (k, it') :: rest =>
      if k = documentId then (documentId, it) :: rest
      else (k, it') :: putItem rest documentId it

/-- `UpdateItem` with a `SET` expression: upsert semantics — if no item with
this key exists, a fresh item holding only the key and the SET attributes is
created. -/
def updateItem (t : Table) (documentId : String) (f : Item → Item) : Table :=
  match getItem t documentId with
  | some it => putItem t documentId (f it)
  | none => putItem t documentId (f {})

/-- The `status` attribute of a document's record, if any. -/
def statusOf (t : Table) (documentId : String) : Option String :=
  (getItem t documentId).bind Item.status

/-- The texts of the `LINE` blocks of a Textract result, in document order:
`textractResult.Blocks?.filter(b => b.BlockType === "LINE").map(b => b.Text || "")`. -/
def lineTexts (r : TextractResult) : Option (List String) :=
  r.blocks.map (fun bs =>
    (bs.filter (fun b => b.blockType == some "LINE")).map (fun b => b.text.getD ""))

/-- The flattened text blob: `textBlocks?.join(" ") || ""`. -/
def fullText (r : TextractResult) : String :=
  match lineTexts r with
  | some ts => String.intercalate " " ts
  | none => ""

/-- `SET #status = :status` with `:status = "PROCESSING"`. -/
def setProcessingExpr (it : Item) : Item :=
  { it with status := some "PROCESSING" }

/-- `SET #status = :status, processedTime = :processedTime, textractData =
:textractData, comprehendEntities = :comprehendEntities` with
`:status = "PROCESSED"`. -/
def setProcessedExpr (now : String) (tr : TextractResult) (en : String) (it : Item) : Item :=
  { it with status := some "PROCESSED", processedTime := some now,
            textractData := some tr, comprehendEntities := some en }

/-- `SET #status = :status, errorMessage = :errorMessage` with
`:status = "ERROR"`. -/
def setErrorExpr (msg : String) (it : Item) : Item :=
  { it with status := some "ERROR", errorMessage := some msg }

/-- External calls made by one worker invocation.  The `comprehend` call
records the text handed to `DetectEntities`. -/
inductive Call
  | dbGet
  | dbUpdate
  | s3Get
  | textract
  | comprehend (text : String)
deriving DecidableEq

/-- Oracle for one worker invocation: the outcome of each external call, in
program order.  An `Except.error m` means the call threw, with `m` the
thrown error's `.message` (`none` when absent or empty, in which case the
worker falls back to `"Unknown error"`). -/
structure WorkerDeps where
  getOk : Except (Option String) Unit := .ok ()
  procWriteOk : Except (Option String) Unit := .ok ()
  s3Result : Except (Option String) Unit := .ok ()
  ocrResult : Except (Option String) TextractResult := .ok {}
  entResult : Except (Option String) String := .ok ""
  doneWriteOk : Except (Option String) Unit := .ok ()
  errWriteOk : Except (Option String) Unit := .ok ()
  nowIso : String := ""

/-- Result of one worker invocation: the table after the invocation, the
external calls made, and the status values durably written, in order. -/
structure WorkerOut where
  table : Table
  calls : List Call
  writes : List String
deriving DecidableEq

/-- `existingItem.Item && existingItem.Item.status && existingItem.Item.status.S === "PROCESSED"`. -/
def statusIsProcessed (t : Table) (documentId : String) : Bool :=
  match getItem t documentId with
  | some it => it.status == some "PROCESSED"
  | none => false

/-- The worker's `catch` block: try to write `status = ERROR` with
`errorMessage = error.message || "Unknown error"`; if that `UpdateItem`
itself throws, only log (no table change, no durable write).  Never
rethrows. -/
def errorPath (documentId : String) (msg : Option String) (d : WorkerDeps)
    (st : WorkerOut) : WorkerOut :=
  match d.errWriteOk with
  | .ok _ =>
      ⟨updateItem st.table documentId (setErrorExpr (msg.getD "Unknown error")),
       st.calls ++ [.dbUpdate], st.writes ++ ["ERROR"]⟩
  | .error _ => ⟨st.table, st.calls ++ [.dbUpdate], st.writes⟩

/-- The body of the worker's `try` block from the `PROCESSING` update
onwards (shared verbatim between both handler variants):
mark `PROCESSING`, fetch the blob, run Textract, flatten, run Comprehend on
the flattened text, then write the `PROCESSED` result.  A thrown error
carries the state at the throw point to the `catch` block. -/
def workerRest (d : WorkerDeps) (documentId : String) (st : WorkerOut) :
    Except (Option String × WorkerOut) WorkerOut :=
  match d.procWriteOk with
  | .error m => .error (m, ⟨st.table, st.calls ++ [.dbUpdate], st.writes⟩)
  | .ok _ =>
    let st1 : WorkerOut :=
      ⟨updateItem st.table documentId setProcessingExpr,
       st.calls ++ [.dbUpdate], st.writes ++ ["PROCESSING"]⟩
    match d.s3Result with
    | .error m => .error (m, ⟨st1.table, st1.calls ++ [.s3Get], st1.writes⟩)
    | .ok _ =>
      let st2 : WorkerOut := ⟨st1.table, st1.calls ++ [.s3Get], st1.writes⟩
      match d.ocrResult with
      | .error m => .error (m, ⟨st2.table, st2.calls ++ [.textract], st2.writes⟩)
      | .ok tr =>
        let st3 : WorkerOut := ⟨st2.table, st2.calls ++ [.textract], st2.writes⟩
        match d.entResult with
        | .error m =>
            .error (m, ⟨st3.table, st3.calls ++ [.comprehend (fullText tr)], st3.writes⟩)
        | .ok en =>
          let st4 : WorkerOut :=
            ⟨st3.table, st3.calls ++ [.comprehend (fullText tr)], st3.writes⟩
          match d.doneWriteOk with
          | .error m => .error (m, ⟨st4.table, st4.calls ++ [.dbUpdate], st4.writes⟩)
          | .ok _ =>
              .ok ⟨updateItem st4.table documentId (setProcessedExpr d.nowIso tr en),
                   st4.calls ++ [.dbUpdate], st4.writes ++ ["PROCESSED"]⟩

/-- The worker's `try` block.  With `check = true` (the handler variant that
imports the common helper functions) it first issues the idempotency
`GetItem` and returns immediately when the record's status is `PROCESSED`;
with `check = false` (`lambda/processing-handler/index.ts`) it starts
directly with the `PROCESSING` update. -/
def workerBody (check : Bool) (d : WorkerDeps) (documentId : String) (t : Table) :
    Except (Option String × WorkerOut) WorkerOut :=
  if check then
    match d.getOk with
    | .error m => .error (m, ⟨t, [.dbGet], []⟩)
    | .ok _ =>
        if statusIsProcessed t documentId then .ok ⟨t, [.dbGet], []⟩
        else workerRest d documentId ⟨t, [.dbGet], []⟩
  else workerRest d documentId ⟨t, [], []⟩

/-- One Extraction Worker invocation (`export const handler`): input
validation (`!documentId || !s3Key` — the falsy string is the empty
string), then the `try` block, with every thrown error routed to the
`catch` block.  The result is `Except`-valued so that "an exception
propagates out of the invocation" is representable; the catch-all means it
never does. -/
def processingHandler (check : Bool) (d : WorkerDeps) (documentId s3Key : String)
    (t : Table) : Except (Option String) WorkerOut :=
  if documentId = "" || s3Key = "" then .ok ⟨t, [], []⟩
  else
    match workerBody check d documentId t with
    | .ok out => .ok out
    | .error (m, st) => .ok (errorPath documentId m d st)

/-- Worker oracle in which every external call succeeds. -/
def allOkDeps (now : String) (tr : TextractResult) (en : String) : WorkerDeps :=
  { ocrResult := .ok tr, entResult := .ok en, nowIso := now }

/-- The first failure, if any, among the steps that run after the
`PROCESSING` transition: blob fetch, OCR, entity recognition, and the
`PROCESSED` write. -/
def failsAfterProcessing (d : WorkerDeps) : Option (Option String) :=
  match d.s3Result with
  | .error m => some m
  | .ok _ =>
    match d.ocrResult with
    | .error m => some m
    | .ok _ =>
      match d.entResult with
      | .error m => some m
      | .ok _ =>
        match d.doneWriteOk with
        | .error m => some m
        | .ok _ => none

/-- JavaScript `s.replace(/\+/g, " ")`. -/
def plusToSpaceAux (l : List Char) : List Char :=
  l.map (fun c => if c = '+' then ' ' else c)

/-- Value of a hexadecimal digit. -/
def hexVal (c : Char) : Option Nat :=
  if '0' ≤ c ∧ c ≤ '9' then some (c.toNat - '0'.toNat)
  else if 'a' ≤ c ∧ c ≤ 'f' then some (c.toNat - 'a'.toNat + 10)
  else if 'A' ≤ c ∧ c ≤ 'F' then some (c.toNat - 'A'.toNat + 10)
  else none

/-- Percent-decoding of an escaped key, one `%XY` escape at a time
(modelling `decodeURIComponent` on single-byte sequences; multi-byte UTF-8
assembly and the `URIError` on malformed input are outside the keys this
development evaluates, which contain no escapes). -/
def percentDecodeAux : List Char → List Char
  | [] => []
  | '%' :: a :: b :: rest =>
      match hexVal a, hexVal b with
      | some h1, some h2 => Char.ofNat (16 * h1 + h2) :: percentDecodeAux rest
      | _, _ => '%' :: percentDecodeAux (a :: b :: rest)
  | c :: rest => c :: percentDecodeAux rest

/-- `decodeURIComponent(s3Object.key.replace(/\+/g, " "))`. -/
def decodeKey (s : String) : String :=
  String.mk (percentDecodeAux (plusToSpaceAux s.data))

/-- JavaScript `s.split(sep)` on a single-character separator, over the
character list: `"a/b".split("/") = ["a","b"]`, `"".split("/") = [""]`,
`"a//b".split("/") = ["a","","b"]`. -/
def splitOnChar (sep : Char) : List Char → List (List Char)
  | [] => [[]]
  | c :: rest =>
      let r := splitOnChar sep rest
      if c = sep then [] :: r
      else
        match r with
        | [] => [[c]]
        | h :: ts => (c :: h) :: ts

/-- `s3Key.split("/")`. -/
def jsSplit (s : String) : List String :=
  (splitOnChar '/' s.data).map String.mk

/-- Identity derivation of the gatekeeper: the third path segment
(`keyParts[2]`) when the key has at least three segments, otherwise a
freshly generated `uuidv4()`. -/
def deriveDocumentId (s3Key uuid : String) : String :=
  let keyParts := jsSplit s3Key
  if keyParts.length ≥ 3 then keyParts.getD 2 "" else uuid

/-- The metadata stored by `putNewDocumentRecord`. -/
structure DocumentMetadata where
  documentId : String
  s3Key : String
  status : String
  uploadTime : String

/-- `checkIfDocumentExists`: `GetItem` and test `existingItem.Item !== undefined`. -/
def checkIfDocumentExists (t : Table) (documentId : String) : Bool :=
  (getItem t documentId).isSome

/-- `putNewDocumentRecord`: an unconditional `PutItemCommand` writing
exactly the four metadata attributes.  There is no `ConditionExpression`,
so an existing item with the same `documentId` is silently replaced — the
call never fails with a conditional-check (`AlreadyExists`) error. -/
def putNewDocumentRecord (t : Table) (m : DocumentMetadata) : Table :=
  putItem t m.documentId
    ⟨some m.s3Key, some m.status, some m.uploadTime, none, none, none, none⟩

/-- Oracle for one gatekeeper `processRecord` call: the generated
`uuidv4()`, the creation timestamp, and whether each external call
succeeds (a `false` models a throw, which `processRecord` catches and
logs, dropping the signal). -/
structure GkDeps where
  uuid : String := ""
  now : String := ""
  checkOk : Bool := true
  putOk : Bool := true
  sqsOk : Bool := true

/-- Shared durable state of the sequential system: the record table, the
queue messages sent so far (`{documentId, s3Key}` payloads), and the
per-document log of durably written status values, in write order. -/
structure SysState where
  table : Table := []
  sent : List (String × String) := []
  log : List (String × String) := []
deriving DecidableEq

/-- The gatekeeper's `processRecord` (`lambda/s3-event-handler/index.ts`):
decode the key, derive the identity, best-effort existence check
(skip entirely — no create, no enqueue — when a record exists), create the
`UPLOADED` record, then enqueue `{documentId, s3Key}`.  Every thrown error
is caught and only logged, abandoning the remaining steps. -/
def processRecord (d : GkDeps) (rawKey : String) (s : SysState) : SysState :=
  let s3Key := decodeKey rawKey
  let documentId := deriveDocumentId s3Key d.uuid
  if !d.checkOk then s
  else if checkIfDocumentExists s.table documentId then s
  else if !d.putOk then s
  else
    let s1 : SysState :=
      ⟨putNewDocumentRecord s.table ⟨documentId, s3Key, "UPLOADED", d.now⟩,
       s.sent, s.log ++ [(documentId, "UPLOADED")]⟩
    if !d.sqsOk then s1
    else { s1 with sent := s1.sent ++ [(documentId, s3Key)] }

/-- The parsed body of one SQS message as seen by the consumer:
either `JSON.parse` succeeds and yields `documentId`/`s3Key` fields, or it
throws (`malformed`). -/
inductive MsgBody
  | valid (documentId s3Key : String)
  | malformed
deriving DecidableEq

/-- One delivered SQS record plus the outcome of the
`stepFunctions.startExecution` call for it. -/
structure ConsumerRecord where
  body : MsgBody
  startOk : Bool
deriving DecidableEq

/-- The consumer's per-record `try` block: parse the body, then start one
Step Functions execution with input `JSON.stringify({documentId, s3Key})`.
Returns the executions started (with their inputs); a parse failure or a
failed start call is caught and only logged, starting nothing. -/
def consumeOne (r : ConsumerRecord) : List (String × String) :=
  match r.body with
  | .malformed => []
  | .valid documentId s3Key => if r.startOk then [(documentId, s3Key)] else []

/-- The consumer handler (`lambda/queue-processing-handler/index.ts`):
loop over the batch, each record in its own `try`/`catch`.  The handler
always resolves (never rejects), so the batch is acknowledged and no
message is ever returned to the queue by this handler. -/
def consumerHandler : List ConsumerRecord → List (String × String)
  | [] => []
  | r :: rest => consumeOne r ++ consumerHandler rest

/-- Which records lead to a started execution: well-formed body and a
successful start call. -/
def startedExecution (r : ConsumerRecord) : Option (String × String) :=
  match r.body with
  | .valid documentId s3Key => if r.startOk then some (documentId, s3Key) else none
  | .malformed => none

/-- One externally triggered invocation against the shared state: either the
gatekeeper handles a blob-available signal for a storage key, or a worker
execution runs for a `{documentId, s3Key}` payload (with `check` selecting
the handler variant). -/
inductive Action
  | ingest (d : GkDeps) (rawKey : String)
  | work (check : Bool) (d : WorkerDeps) (documentId s3Key : String)

/-- Sequential step: run one invocation to completion against the state. -/
def stepSys (s : SysState) (a : Action) : SysState :=
  match a with
  | .ingest d rawKey => processRecord d rawKey s
  | .work check d documentId s3Key =>
      match processingHandler check d documentId s3Key s.table with
      | .ok out =>
          ⟨out.table, s.sent, s.log ++ out.writes.map (fun w => (documentId, w))⟩
      | .error _ => s

/-- Run a sequence of invocations from the empty initial state. -/
def runSys (acts : List Action) : SysState :=
  acts.foldl stepSys {}

/-- The status values durably written for one document, in order. -/
def docLog (log : List (String × String)) (documentId : String) : List String :=
  (log.filter (fun p => p.1 = documentId)).map (fun p => p.2)

/-- The status-write sequence of one document over a system run. -/
def statusSeq (s : SysState) (documentId : String) : List String :=
  docLog s.log documentId

/-- Decidable subsequence test on status sequences. -/
def isSubseqOf : List String → List String → Bool
  | [], _ => true
  | _ :: _, [] => false
  | a :: l, b :: m => if a = b then isSubseqOf l m else isSubseqOf (a :: l) m

/-- An action whose worker invocations perform the idempotency re-check and
whose idempotency read succeeds (gatekeeper actions qualify trivially). -/
def workerChecked : Action → Bool
  | .ingest _ _ => true
  | .work check d _ _ =>
      check && (match d.getOk with | .ok _ => true | .error _ => false)

/-! ### Store lemmas -/

theorem getItem_putItem (t : Table) (i j : String) (it : Item) :
    getItem (putItem t i it) j = if i = j then some it else getItem t j := by
  induction t with
  | nil => simp only [putItem, getItem]
  | cons p rest ih =>
    obtain ⟨k, it'⟩ := p
    by_cases hk : k = i
    · subst hk
      by_cases hj : k = j <;> simp [putItem, getItem, hj]
    · by_cases hj : k = j
      · subst hj
        have hij : i ≠ k := fun h => hk h.symm
        simp [putItem, getItem, hk, hij, ih]
      · simp [putItem, getItem, hk, hj, ih]

theorem getItem_updateItem (t : Table) (i j : String) (f : Item → Item) :
    getItem (updateItem t i f) j =
      if i = j then some (f ((getItem t i).getD {})) else getItem t j := by
  unfold updateItem
  cases h : getItem t i <;> simp [h, getItem_putItem]

theorem getItem_updateItem_self (t : Table) (i : String) (f : Item → Item) :
    getItem (updateItem t i f) i = some (f ((getItem t i).getD {})) := by
  simp [getItem_updateItem]

theorem getItem_updateItem_ne (t : Table) (i j : String) (f : Item → Item) (h : i ≠ j) :
    getItem (updateItem t i f) j = getItem t j := by
  simp [getItem_updateItem, h]

/-! ### Worker invocation characterisation -/

/-- The catch block either persists the `ERROR` status (with the message
attached) or, when the error write itself throws, leaves the table and the
durable-write log untouched. -/
theorem errorPath_cases (documentId : String) (msg : Option String) (d : WorkerDeps)
    (st : WorkerOut) :
    ((errorPath documentId msg d st).table =
        updateItem st.table documentId (setErrorExpr (msg.getD "Unknown error")) ∧
      (errorPath documentId msg d st).writes = st.writes ++ ["ERROR"]) ∨
    ((errorPath documentId msg d st).table = st.table ∧
      (errorPath documentId msg d st).writes = st.writes) := by
  unfold errorPath
  cases d.errWriteOk <;> simp

/-- The post-check pipeline either throws before or after the durable
`PROCESSING` write, or completes with the `PROCESSED` write. -/
theorem workerRest_cases (d : WorkerDeps) (documentId : String) (st : WorkerOut) :
    (∃ m stE, workerRest d documentId st = .error (m, stE) ∧
      ((stE.table = st.table ∧ stE.writes = st.writes) ∨
        (stE.table = updateItem st.table documentId setProcessingExpr ∧
          stE.writes = st.writes ++ ["PROCESSING"]))) ∨
    (∃ tr en stO, workerRest d documentId st = .ok stO ∧
      stO.table = updateItem (updateItem st.table documentId setProcessingExpr) documentId
        (setProcessedExpr d.nowIso tr en) ∧
      stO.writes = st.writes ++ ["PROCESSING", "PROCESSED"]) := by
  unfold workerRest
  cases d.procWriteOk with
  | error m => exact Or.inl ⟨m, _, rfl, Or.inl ⟨rfl, rfl⟩⟩
  | ok _ =>
    cases d.s3Result with
    | error m => exact Or.inl ⟨m, _, rfl, Or.inr ⟨rfl, rfl⟩⟩
    | ok _ =>
      cases d.ocrResult with
      | error m => exact Or.inl ⟨m, _, rfl, Or.inr ⟨rfl, rfl⟩⟩
      | ok tr =>
        cases d.entResult with
        | error m => exact Or.inl ⟨m, _, rfl, Or.inr ⟨rfl, rfl⟩⟩
        | ok en =>
          cases d.doneWriteOk with
          | error m => exact Or.inl ⟨m, _, rfl, Or.inr ⟨rfl, rfl⟩⟩
          | ok _ => exact Or.inr ⟨tr, en, _, rfl, rfl, by simp⟩

/-- Every worker invocation returns normally, and its effect on the table
and the durable-write log takes one of five shapes: no write at all; a lone
`ERROR` write; a lone `PROCESSING` write; `PROCESSING` then `ERROR`; or
`PROCESSING` then `PROCESSED`. -/
theorem worker_cases (check : Bool) (d : WorkerDeps) (documentId s3Key : String) (t : Table) :
    ∃ out, processingHandler check d documentId s3Key t = .ok out ∧
      ((out.table = t ∧ out.writes = []) ∨
        (∃ m, out.table = updateItem t documentId (setErrorExpr m) ∧
          out.writes = ["ERROR"]) ∨
        (out.table = updateItem t documentId setProcessingExpr ∧
          out.writes = ["PROCESSING"]) ∨
        (∃ m, out.table = updateItem (updateItem t documentId setProcessingExpr) documentId
            (setErrorExpr m) ∧
          out.writes = ["PROCESSING", "ERROR"]) ∨
        (∃ tr en, out.table =
            updateItem (updateItem t documentId setProcessingExpr) documentId
              (setProcessedExpr d.nowIso tr en) ∧
          out.writes = ["PROCESSING", "PROCESSED"])) := by
  unfold processingHandler
  by_cases hv : (documentId = "" || s3Key = "") = true
  · rw [if_pos hv]
    exact ⟨_, rfl, Or.inl ⟨rfl, rfl⟩⟩
  · rw [if_neg hv]
    have hrest : ∀ cs : List Call,
        ∃ out, (match workerRest d documentId ⟨t, cs, []⟩ with
            | .ok o => Except.ok o
            | .error (m, st) => Except.ok (errorPath documentId m d st) :
              Except (Option String) WorkerOut) = Except.ok out ∧
          ((out.table = t ∧ out.writes = []) ∨
            (∃ m, out.table = updateItem t documentId (setErrorExpr m) ∧
              out.writes = ["ERROR"]) ∨
            (out.table = updateItem t documentId setProcessingExpr ∧
              out.writes = ["PROCESSING"]) ∨
            (∃ m, out.table = updateItem (updateItem t documentId setProcessingExpr)
                documentId (setErrorExpr m) ∧
              out.writes = ["PROCESSING", "ERROR"]) ∨
            (∃ tr en, out.table =
                updateItem (updateItem t documentId setProcessingExpr) documentId
                  (setProcessedExpr d.nowIso tr en) ∧
              out.writes = ["PROCESSING", "PROCESSED"])) := by
      intro cs
      rcases workerRest_cases d documentId ⟨t, cs, []⟩ with ⟨m, stE, heq, hst⟩ | ⟨tr, en, stO, heq, ht, hw⟩
      · rw [heq]
        refine ⟨_, rfl, ?_⟩
        rcases errorPath_cases documentId m d stE with ⟨het, hew⟩ | ⟨het, hew⟩ <;>
          rcases hst with ⟨h1, h2⟩ | ⟨h1, h2⟩
        · exact Or.inr (Or.inl ⟨m.getD "Unknown error", by simp [het, h1], by simp [hew, h2]⟩)
        · exact Or.inr (Or.inr (Or.inr
            (Or.inl ⟨m.getD "Unknown error", by simp [het, h1], by simp [hew, h2]⟩)))
        · exact Or.inl ⟨by simp [het, h1], by simp [hew, h2]⟩
        · exact Or.inr (Or.inr (Or.inl ⟨by simp [het, h1], by simp [hew, h2]⟩))
      · rw [heq]
        exact ⟨_, rfl, Or.inr (Or.inr (Or.inr (Or.inr ⟨tr, en, by simp [ht], by simp [hw]⟩)))⟩
    unfold workerBody
    cases check with
    | false => simpa using hrest []
    | true =>
      cases hg : d.getOk with
      | error m =>
        simp only [if_pos rfl]
        refine ⟨_, rfl, ?_⟩
        rcases errorPath_cases documentId m d ⟨t, [.dbGet], []⟩ with ⟨het, hew⟩ | ⟨het, hew⟩
        · exact Or.inr (Or.inl ⟨m.getD "Unknown error", by simp [het], by simp [hew]⟩)
        · exact Or.inl ⟨by simp [het], by simp [hew]⟩
      | ok _ =>
        by_cases hp : statusIsProcessed t documentId
        · simp only [if_pos rfl, hp, if_pos rfl]
          exact ⟨_, rfl, Or.inl ⟨rfl, rfl⟩⟩
        · simp only [if_pos rfl, hp]
          simpa using hrest [.dbGet]

/-- A worker invocation that performs the idempotency re-check, whose
`GetItem` succeeds, on a record whose status is `PROCESSED`: no write at
all, the table (hence the record) is left untouched, and the only external
call made is the record-store read. -/
theorem worker_skip (d : WorkerDeps) (documentId s3Key : String) (t : Table)
    (hg : d.getOk = .ok ()) (hp : statusIsProcessed t documentId = true) :
    ∃ out, processingHandler true d documentId s3Key t = .ok out ∧
      out.table = t ∧ out.calls.length ≤ 1 ∧ (.s3Get : Call) ∉ out.calls ∧
      (.textract : Call) ∉ out.calls ∧ (∀ txt, (.comprehend txt : Call) ∉ out.calls) ∧
      out.writes = [] := by
  unfold processingHandler workerBody
  by_cases hv : (documentId = "" || s3Key = "") = true
  · rw [if_pos hv]
    exact ⟨_, rfl, rfl, by simp, by simp, by simp, by simp, rfl⟩
  · rw [if_neg hv]
    rw [hg]
    simp only [if_pos rfl, hp, if_pos rfl]
    exact ⟨_, rfl, rfl, by simp, by simp, by simp, by simp, rfl⟩

/-- The outer try/catch of the worker never lets an exception escape. -/
theorem processingHandler_isOk (check : Bool) (d : WorkerDeps) (documentId s3Key : String)
    (t : Table) : (processingHandler check d documentId s3Key t).isOk = true := by
  unfold processingHandler
  by_cases hv : (documentId = "" || s3Key = "") = true
  · rw [if_pos hv]; rfl
  · rw [if_neg hv]
    cases h : workerBody check d documentId t with
    | ok out => rfl
    | error e => obtain ⟨m, st⟩ := e; rfl

/-! ### Concrete example data used by individual claims -/

/-- The direct-drop storage key of Scenario A. -/
def exKey : String := "uploads/direct/doc-123/file.pdf"

/-- A record that has already completed processing. -/
def exProcessedItem : Item :=
  ⟨some exKey, some "PROCESSED", some "t0", some "t1",
   some ⟨some [⟨some "LINE", some "old"⟩]⟩, some "[]", none⟩

/-- A three-invocation history: ingest, a worker run whose OCR call throws,
then a redelivered worker run in which every call succeeds. -/
def exTrace : List Action :=
  [ .ingest ⟨"u1", "t0", true, true, true⟩ exKey,
    .work true { ocrResult := .error (some "OCR failed") } "doc-123" exKey,
    .work true (allOkDeps "t2" ⟨some []⟩ "[]") "doc-123" exKey ]

/-- The record of `doc-123` after `exTrace`. -/
def exFinalItem : Item :=
  ⟨some exKey, some "PROCESSED", some "t0", some "t2",
   some ⟨some []⟩, some "[]", some "OCR failed"⟩

/-! ### Claim C1 -/

/-- Claim C1 (code-bug evidence).  The claim says an Extraction Worker
invocation on a document whose record is already `PROCESSED` is a no-op
that calls none of the blob store, the OCR service, or the
entity-recognition service.  The handler deployed by the CDK stack
(`lambda/processing-handler/index.ts`, the `check = false` variant) has no
idempotency read: on a `PROCESSED` record it durably writes `PROCESSING`
and then `PROCESSED` again, calls S3, Textract and Comprehend, and
overwrites `processedTime`, `textractData` and `comprehendEntities`.
The `check = true` variant behaves as the claim says (see
`worker_skip`). -/
theorem c1_noCheck_reprocesses_processed :
    processingHandler false (allOkDeps "t2" ⟨some []⟩ "[]") "doc-123" exKey
        [("doc-123", exProcessedItem)] =
      .ok ⟨[("doc-123", ⟨some exKey, some "PROCESSED", some "t0", some "t2",
              some ⟨some []⟩, some "[]", none⟩)],
           [.dbUpdate, .s3Get, .textract, .comprehend "", .dbUpdate],
           ["PROCESSING", "PROCESSED"]⟩ ∧
    (⟨some exKey, some "PROCESSED", some "t0", some "t2",
       some ⟨some []⟩, some "[]", none⟩ : Item) ≠ exProcessedItem := by
  constructor
  · rfl
  · decide

/-! ### Claim C3 -/

/-- An existing record as the duplicate-create target. -/
def c3OldItem : Item := ⟨some "k1", some "UPLOADED", some "t1", none, none, none, none⟩

/-- Claim C3 (counterexample).  The claim says the store's create operation
fails with `AlreadyExists` when the identity is already present.
`putNewDocumentRecord` issues a `PutItemCommand` with no
`ConditionExpression`: on an already-present identity it succeeds and
silently replaces the record (here the original `uploadTime`/`s3Key` are
lost), so no `AlreadyExists` failure exists to be swallowed. -/
theorem c3_create_overwrites :
    putNewDocumentRecord [("doc-123", c3OldItem)] ⟨"doc-123", "k2", "UPLOADED", "t2"⟩ =
      [("doc-123", ⟨some "k2", some "UPLOADED", some "t2", none, none, none, none⟩)] ∧
    (⟨some "k2", some "UPLOADED", some "t2", none, none, none, none⟩ : Item) ≠ c3OldItem := by
  constructor
  · rfl
  · decide

/-! ### Claim C4 -/

/-- Skipping is total: whenever a record with the derived identity already
exists, `processRecord` changes nothing at all — no record is created, no
status is written, and nothing is enqueued (the existence branch returns
before the `SendMessage` call; a failed existence check is caught and also
returns). -/
theorem processRecord_exists_skip (d : GkDeps) (rawKey : String) (s : SysState)
    (h : checkIfDocumentExists s.table (deriveDocumentId (decodeKey rawKey) d.uuid) = true) :
    processRecord d rawKey s = s := by
  unfold processRecord
  cases hc : d.checkOk <;> simp [h]

/-- The gatekeeper state for the duplicate delivery of Scenario B. -/
def c4State : SysState :=
  ⟨[("doc-123", ⟨some exKey, some "UPLOADED", some "t0", none, none, none, none⟩)],
   [], []⟩

/-- Claim C4 (counterexample).  The claim says a signal whose derived
identity already has a record creates no new record *but still enqueues* a
processing request.  On the concrete duplicate delivery of Scenario B the
gatekeeper returns before the enqueue: the sent-message list stays empty
and the whole state is unchanged. -/
theorem c4_duplicate_enqueues_nothing :
    (processRecord ⟨"u2", "t9", true, true, true⟩ exKey c4State).sent = [] ∧
    processRecord ⟨"u2", "t9", true, true, true⟩ exKey c4State = c4State := by
  constructor
  · rfl
  · rfl

/-- Claim C4 (amended).  When the derived identity already has a record,
the gatekeeper creates no new record and enqueues nothing: the delivery is
dropped and the state is left exactly as it was. -/
theorem c4_duplicate_is_noop (d : GkDeps) (rawKey : String) (s : SysState)
    (h : checkIfDocumentExists s.table (deriveDocumentId (decodeKey rawKey) d.uuid) = true) :
    processRecord d rawKey s = s :=
  processRecord_exists_skip d rawKey s h

/-- Claim C4 witness: the amended theorem applied to the duplicate delivery
of Scenario B. -/
theorem c4_duplicate_is_noop_witness :
    checkIfDocumentExists c4State.table
        (deriveDocumentId (decodeKey exKey) "u2") = true ∧
    processRecord ⟨"u2", "t9", true, true, true⟩ exKey c4State = c4State :=
  ⟨by decide, c4_duplicate_is_noop ⟨"u2", "t9", true, true, true⟩ exKey c4State (by decide)⟩

/-! ### Claim C7 -/

/-- Claim C7 (counterexample).  The claim says every delivered message
starts exactly one worker execution, and a message whose execution throws
is redelivered (bounded, then dead-lettered) or surfaced as an unhandled
fault.  Concretely: a well-formed message whose `startExecution` call
throws starts no execution, and a malformed message starts none either; in
both cases the per-record catch swallows the error, the handler resolves
normally (it is a total function into the started-execution list), the
batch is acknowledged, and nothing is redelivered or surfaced — no
dead-letter queue is configured in the stack. -/
theorem c7_failed_start_swallowed :
    consumerHandler [⟨.valid "doc-123" exKey, false⟩] = [] ∧
    consumerHandler [⟨.malformed, true⟩] = [] := by
  constructor
  · rfl
  · rfl

/-- Claim C7 (amended).  For each delivered message the consumer starts at
most one worker execution: exactly one — with the `{documentId, s3Key}`
payload passed through unmodified — when the body parses and the start call
succeeds, and none otherwise; all errors are caught per record, so the
handler always resolves and failed messages are neither redelivered nor
surfaced. -/
theorem c7_consumer_passthrough (records : List ConsumerRecord) :
    consumerHandler records = records.filterMap startedExecution := by
  induction records with
  | nil => rfl
  | cons r rest ih =>
    cases hb : r.body with
    | valid documentId s3Key =>
      cases hs : r.startOk <;>
        simp [consumerHandler, consumeOne, startedExecution, hb, hs, List.filterMap_cons, ih]
    | malformed =>
      simp [consumerHandler, consumeOne, startedExecution, hb, List.filterMap_cons, ih]

/-! ### Claim C9 -/

/-- The Scenario E OCR output. -/
def exScenarioE : TextractResult :=
  ⟨some [⟨some "LINE", some "Invoice"⟩, ⟨some "TABLE", some "ignored"⟩,
         ⟨some "LINE", some "#42"⟩]⟩

/-- Claim C9.  The flattening step keeps exactly the `LINE` elements, in
document order, joined with single spaces: dropping any non-`LINE` block
leaves the flattened text unchanged, the flattened text is the
space-separated join of the `LINE` texts in order, and on the Scenario E
input the worker hands exactly `"Invoice #42"` to the entity-recognition
call. -/
theorem c9_flatten_lines :
    (∀ (b : Block) (bs1 bs2 : List Block), b.blockType ≠ some "LINE" →
      fullText ⟨some (bs1 ++ b :: bs2)⟩ = fullText ⟨some (bs1 ++ bs2)⟩) ∧
    (∀ bs : List Block, fullText ⟨some bs⟩ =
      String.intercalate " "
        ((bs.filter (fun b => b.blockType == some "LINE")).map (fun b => b.text.getD ""))) ∧
    fullText exScenarioE = "Invoice #42" ∧
    (processingHandler true (allOkDeps "t1" exScenarioE "[]") "doc-123" exKey []).toOption.map
        WorkerOut.calls =
      some [.dbGet, .dbUpdate, .s3Get, .textract, .comprehend "Invoice #42", .dbUpdate] := by
  refine ⟨?_, ?_, rfl, rfl⟩
  · intro b bs1 bs2 hb
    have hb' : (b.blockType == some "LINE") = false := beq_eq_false_iff_ne.mpr hb
    simp [fullText, lineTexts, List.filter_append, List.filter_cons, hb']
  · intro bs
    simp [fullText, lineTexts]

/-- Claim C9 witness: the non-`LINE` hypothesis discharged on the `TABLE`
block of Scenario E. -/
theorem c9_flatten_lines_witness :
    (some "TABLE" : Option String) ≠ some "LINE" ∧
    fullText ⟨some ([⟨some "LINE", some "Invoice"⟩] ++ ⟨some "TABLE", some "ignored"⟩ ::
        [⟨some "LINE", some "#42"⟩])⟩ =
      fullText ⟨some ([⟨some "LINE", some "Invoice"⟩] ++ [⟨some "LINE", some "#42"⟩])⟩ :=
  ⟨by decide,
   c9_flatten_lines.1 ⟨some "TABLE", some "ignored"⟩ [⟨some "LINE", some "Invoice"⟩]
     [⟨some "LINE", some "#42"⟩] (by decide)⟩

/-! ### Claim C10 -/

/-- Claim C10.  A worker invocation (re-check variant) for a `documentId`
with no existing record does not fail: the idempotency read finds nothing
and passes, the `PROCESSING` `UpdateItem` upserts a fresh record carrying
only the status attribute, and the pipeline then runs to `PROCESSED` on a
record that was never created by the gatekeeper — its `s3Key` and
`uploadTime` attributes are absent at the terminal state. -/
theorem c10_missing_record_upsert (documentId s3Key now : String) (tr : TextractResult)
    (en : String) (h1 : documentId ≠ "") (h2 : s3Key ≠ "") :
    processingHandler true (allOkDeps now tr en) documentId s3Key [] =
      .ok ⟨[(documentId, ⟨none, some "PROCESSED", none, some now, some tr, some en, none⟩)],
           [.dbGet, .dbUpdate, .s3Get, .textract, .comprehend (fullText tr), .dbUpdate],
           ["PROCESSING", "PROCESSED"]⟩ ∧
    updateItem [] documentId setProcessingExpr =
      [(documentId, ⟨none, some "PROCESSING", none, none, none, none, none⟩)] := by
  constructor
  · unfold processingHandler workerBody workerRest allOkDeps statusIsProcessed
    simp [h1, h2, getItem, updateItem, putItem, setProcessingExpr, setProcessedExpr]
  · simp [updateItem, getItem, putItem, setProcessingExpr]

/-- Claim C10 witness: the theorem instantiated at Scenario-style inputs. -/
theorem c10_missing_record_upsert_witness :
    ("doc-999" ≠ "" ∧ exKey ≠ "") ∧
    processingHandler true (allOkDeps "t1" ⟨some []⟩ "[]") "doc-999" exKey [] =
      .ok ⟨[("doc-999", ⟨none, some "PROCESSED", none, some "t1", some ⟨some []⟩,
              some "[]", none⟩)],
           [.dbGet, .dbUpdate, .s3Get, .textract, .comprehend (fullText ⟨some []⟩), .dbUpdate],
           ["PROCESSING", "PROCESSED"]⟩ :=
  ⟨⟨by decide, by decide⟩,
   (c10_missing_record_upsert "doc-999" exKey "t1" ⟨some []⟩ "[]"
     (by decide) (by decide)).1⟩

/-! ### Claim C6 -/

/-- When a step after the successful `PROCESSING` write throws, the worker
lands in the catch block with the table holding the `PROCESSING` record. -/
theorem worker_fail_after_processing (check : Bool) (d : WorkerDeps)
    (documentId s3Key : String) (t : Table) (m : Option String)
    (h1 : documentId ≠ "") (h2 : s3Key ≠ "")
    (hg : d.getOk = .ok ()) (hp : statusIsProcessed t documentId = false)
    (hw : d.procWriteOk = .ok ()) (hf : failsAfterProcessing d = some m) :
    ∃ cs, processingHandler check d documentId s3Key t =
      .ok (errorPath documentId m d
        ⟨updateItem t documentId setProcessingExpr, cs, ["PROCESSING"]⟩) := by
  obtain ⟨cs0, hbody⟩ : ∃ cs0, workerBody check d documentId t =
      workerRest d documentId ⟨t, cs0, []⟩ := by
    cases check with
    | false => exact ⟨[], rfl⟩
    | true =>
      refine ⟨[.dbGet], ?_⟩
      unfold workerBody
      rw [hg, hp]
      simp
  have hval : ¬((documentId = "" || s3Key = "") = true) := by simp [h1, h2]
  unfold processingHandler
  rw [if_neg hval, hbody]
  unfold workerRest
  rw [hw]
  unfold failsAfterProcessing at hf
  cases hs3 : d.s3Result with
  | error m1 =>
    rw [hs3] at hf
    injection hf with hf
    subst hf
    exact ⟨_, rfl⟩
  | ok v3 =>
    rw [hs3] at hf
    cases ho : d.ocrResult with
    | error m1 =>
      rw [ho] at hf
      injection hf with hf
      subst hf
      exact ⟨_, rfl⟩
    | ok tr =>
      rw [ho] at hf
      cases he : d.entResult with
      | error m1 =>
        rw [he] at hf
        injection hf with hf
        subst hf
        exact ⟨_, rfl⟩
      | ok en =>
        rw [he] at hf
        cases hd : d.doneWriteOk with
        | error m1 =>
          rw [hd] at hf
          injection hf with hf
          subst hf
          exact ⟨_, rfl⟩
        | ok _ =>
          rw [hd] at hf
          exact absurd hf (by simp)

/-- Claim C6.  If any step after the `PROCESSING` transition throws (blob
fetch, OCR, entity recognition, or the `PROCESSED` write), the worker
writes `status = ERROR` with `errorMessage` set to the failure's message,
falling back to `"Unknown error"` when the message is absent; if the
`ERROR` write itself throws, the table keeps the `PROCESSING` record and
only `PROCESSING` was durably written; and in all cases (any variant, any
oracle) the invocation returns normally — no exception escapes. -/
theorem c6_error_recorded (check : Bool) (d : WorkerDeps) (documentId s3Key : String)
    (t : Table) (m : Option String)
    (h1 : documentId ≠ "") (h2 : s3Key ≠ "")
    (hg : d.getOk = .ok ()) (hp : statusIsProcessed t documentId = false)
    (hw : d.procWriteOk = .ok ()) (hf : failsAfterProcessing d = some m) :
    (∀ (check' : Bool) (d' : WorkerDeps) (i k : String) (t' : Table),
      (processingHandler check' d' i k t').isOk = true) ∧
    ∃ out, processingHandler check d documentId s3Key t = .ok out ∧
      (d.errWriteOk = .ok () →
        statusOf out.table documentId = some "ERROR" ∧
        (getItem out.table documentId).bind Item.errorMessage =
          some (m.getD "Unknown error")) ∧
      (∀ e, d.errWriteOk = .error e →
        out.table = updateItem t documentId setProcessingExpr ∧
        out.writes = ["PROCESSING"]) := by
  refine ⟨fun check' d' i k t' => processingHandler_isOk check' d' i k t', ?_⟩
  obtain ⟨cs, hrun⟩ := worker_fail_after_processing check d documentId s3Key t m
    h1 h2 hg hp hw hf
  refine ⟨_, hrun, ?_, ?_⟩
  · intro he
    unfold errorPath
    rw [he]
    constructor
    · simp [statusOf, getItem_updateItem_self, setErrorExpr]
    · simp [getItem_updateItem_self, setErrorExpr]
  · intro e he
    unfold errorPath
    rw [he]
    exact ⟨rfl, rfl⟩

/-- The record-store state for the Scenario C witness run. -/
def c6Table : Table :=
  [("doc-123", ⟨some exKey, some "UPLOADED", some "t0", none, none, none, none⟩)]

/-- The Scenario C worker oracle: the OCR call throws. -/
def c6Deps : WorkerDeps := { ocrResult := .error (some "OCR failed") }

/-- Claim C6 witness: the theorem applied to Scenario C — worker on an
`UPLOADED` record whose OCR call throws. -/
theorem c6_error_recorded_witness :
    (∀ (check' : Bool) (d' : WorkerDeps) (i k : String) (t' : Table),
      (processingHandler check' d' i k t').isOk = true) ∧
    ∃ out, processingHandler true c6Deps "doc-123" exKey c6Table = .ok out ∧
      (c6Deps.errWriteOk = .ok () →
        statusOf out.table "doc-123" = some "ERROR" ∧
        (getItem out.table "doc-123").bind Item.errorMessage =
          some ((some "OCR failed").getD "Unknown error")) ∧
      (∀ e, c6Deps.errWriteOk = .error e →
        out.table = updateItem c6Table "doc-123" setProcessingExpr ∧
        out.writes = ["PROCESSING"]) :=
  c6_error_recorded true c6Deps "doc-123" exKey c6Table (some "OCR failed")
    (by decide) (by decide) rfl (by decide) rfl rfl

/-! ### Claim C8 -/

theorem splitOnChar_not_mem (sep : Char) (l : List Char) (h : sep ∉ l) :
    splitOnChar sep l = [l] := by
  induction l with
  | nil => rfl
  | cons c rest ih =>
    have hc : c ≠ sep := fun hh => h (hh ▸ List.mem_cons_self c rest)
    have hrest : sep ∉ rest := fun hh => h (List.mem_cons_of_mem c hh)
    simp only [splitOnChar, ih hrest]
    rw [if_neg hc]

theorem splitOnChar_append (sep : Char) (l1 l2 : List Char) (h : sep ∉ l1) :
    splitOnChar sep (l1 ++ sep :: l2) = l1 :: splitOnChar sep l2 := by
  induction l1 with
  | nil => simp [splitOnChar]
  | cons c rest ih =>
    have hc : c ≠ sep := fun hh => h (hh ▸ List.mem_cons_self c rest)
    have hrest : sep ∉ rest := fun hh => h (List.mem_cons_of_mem c hh)
    simp only [List.cons_append, splitOnChar, List.append_eq, ih hrest]
    rw [if_neg hc]

/-- Splitting a four-segment key on `/` recovers the four segments. -/
theorem jsSplit_four (source docId fileName : String)
    (hs : '/' ∉ source.data) (hd : '/' ∉ docId.data) (hf : '/' ∉ fileName.data) :
    jsSplit ("uploads" ++ "/" ++ source ++ "/" ++ docId ++ "/" ++ fileName) =
      ["uploads", source, docId, fileName] := by
  unfold jsSplit
  have hdata : ("uploads" ++ "/" ++ source ++ "/" ++ docId ++ "/" ++ fileName).data =
      "uploads".data ++ '/' :: (source.data ++ '/' :: (docId.data ++ '/' :: fileName.data)) := by
    simp [String.data_append]
  rw [hdata, splitOnChar_append _ _ _ (by decide), splitOnChar_append _ _ _ hs,
    splitOnChar_append _ _ _ hd, splitOnChar_not_mem _ _ hf]
  rfl

/-- Claim C8.  For every storage key of the shape
`uploads/<source>/<documentId>/<fileName>` (segments free of `/`) the
gatekeeper derives the document identity as the third path segment; when
the key has fewer than three slash-separated segments the freshly generated
identity is used instead; and on the concrete Scenario A signal for
`uploads/direct/doc-123/file.pdf` with no prior record, exactly one record
is created (`documentId = doc-123`, `status = UPLOADED`) and exactly one
message `{documentId: doc-123, sourceKey: uploads/direct/doc-123/file.pdf}`
is enqueued. -/
theorem c8_identity_derivation :
    (∀ source docId fileName uuid : String, '/' ∉ source.data → '/' ∉ docId.data →
      '/' ∉ fileName.data →
      deriveDocumentId ("uploads" ++ "/" ++ source ++ "/" ++ docId ++ "/" ++ fileName) uuid =
        docId) ∧
    (∀ s3Key uuid : String, (jsSplit s3Key).length < 3 → deriveDocumentId s3Key uuid = uuid) ∧
    processRecord ⟨"u1", "t0", true, true, true⟩ exKey {} =
      ⟨[("doc-123", ⟨some exKey, some "UPLOADED", some "t0", none, none, none, none⟩)],
       [("doc-123", exKey)], [("doc-123", "UPLOADED")]⟩ := by
  refine ⟨?_, ?_, by rfl⟩
  · intro source docId fileName uuid hs hd hf
    unfold deriveDocumentId
    rw [jsSplit_four source docId fileName hs hd hf]
    simp [List.getD]
  · intro s3Key uuid h
    simp only [deriveDocumentId]
    rw [if_neg (by omega)]

/-- Claim C8 witness: the derivation applied to the Scenario A segments and
the fallback applied to a segment-poor key. -/
theorem c8_identity_derivation_witness :
    ('/' ∉ "direct".data ∧ '/' ∉ "doc-123".data ∧ '/' ∉ "file.pdf".data ∧
      (jsSplit "nokey").length < 3) ∧
    deriveDocumentId ("uploads" ++ "/" ++ "direct" ++ "/" ++ "doc-123" ++ "/" ++ "file.pdf")
        "u9" = "doc-123" ∧
    deriveDocumentId "nokey" "u9" = "u9" :=
  ⟨⟨by decide, by decide, by decide, by decide⟩,
   c8_identity_derivation.1 "direct" "doc-123" "file.pdf" "u9"
     (by decide) (by decide) (by decide),
   c8_identity_derivation.2.1 "nokey" "u9" (by decide)⟩

/-! ### Claim C3, amended part -/

/-- On keys with at least three segments the generated uuid is ignored. -/
theorem deriveDocumentId_long (s3Key u1 u2 : String)
    (h : 3 ≤ (jsSplit s3Key).length) :
    deriveDocumentId s3Key u1 = deriveDocumentId s3Key u2 := by
  simp [deriveDocumentId, h]

/-- Claim C3 (amended).  The create operation is an unconditional put that
never fails with `AlreadyExists`; identity uniqueness instead comes from the
gatekeeper's existence check running before the create.  Two sequential
deliveries of the same at-least-three-segment signal leave exactly one
`UPLOADED` record — the one the first delivery created — and the second
delivery is dropped before any create is attempted. -/
theorem c3_single_uploaded_record (d1 d2 : GkDeps) (rawKey : String)
    (h3 : 3 ≤ (jsSplit (decodeKey rawKey)).length)
    (hc : d1.checkOk = true) (hp : d1.putOk = true) :
    (processRecord d1 rawKey {}).table =
      [(deriveDocumentId (decodeKey rawKey) d1.uuid,
        ⟨some (decodeKey rawKey), some "UPLOADED", some d1.now, none, none, none, none⟩)] ∧
    processRecord d2 rawKey (processRecord d1 rawKey {}) = processRecord d1 rawKey {} := by
  have htab : (processRecord d1 rawKey {}).table =
      [(deriveDocumentId (decodeKey rawKey) d1.uuid,
        ⟨some (decodeKey rawKey), some "UPLOADED", some d1.now, none, none, none, none⟩)] := by
    unfold processRecord putNewDocumentRecord
    rw [hc, hp]
    cases d1.sqsOk <;> simp [checkIfDocumentExists, getItem, putItem]
  refine ⟨htab, ?_⟩
  apply processRecord_exists_skip
  rw [htab, deriveDocumentId_long _ d2.uuid d1.uuid h3]
  simp [checkIfDocumentExists, getItem]

/-- Claim C3 witness: two sequential Scenario A deliveries. -/
theorem c3_single_uploaded_record_witness :
    (3 ≤ (jsSplit (decodeKey exKey)).length ∧
      (⟨"u1", "t0", true, true, true⟩ : GkDeps).checkOk = true ∧
      (⟨"u1", "t0", true, true, true⟩ : GkDeps).putOk = true) ∧
    (processRecord ⟨"u1", "t0", true, true, true⟩ exKey {}).table =
      [(deriveDocumentId (decodeKey exKey) "u1",
        ⟨some (decodeKey exKey), some "UPLOADED", some "t0", none, none, none, none⟩)] ∧
    processRecord ⟨"u2", "t9", true, true, true⟩ exKey
        (processRecord ⟨"u1", "t0", true, true, true⟩ exKey {}) =
      processRecord ⟨"u1", "t0", true, true, true⟩ exKey {} :=
  ⟨⟨by decide, rfl, rfl⟩,
   c3_single_uploaded_record ⟨"u1", "t0", true, true, true⟩ ⟨"u2", "t9", true, true, true⟩
     exKey (by decide) rfl rfl⟩

/-! ### Claim C5 -/

/-- Field/status consistency of a single record: a `PROCESSED` status comes
with both result payloads, an `ERROR` status with an error message. -/
def goodItem (it : Item) : Prop :=
  (it.status = some "PROCESSED" → it.textractData.isSome ∧ it.comprehendEntities.isSome) ∧
  (it.status = some "ERROR" → it.errorMessage.isSome)

/-- Every record in the table is consistent. -/
def FieldsInv (t : Table) : Prop :=
  ∀ documentId it, getItem t documentId = some it → goodItem it

theorem goodItem_setProcessing (it : Item) : goodItem (setProcessingExpr it) := by
  constructor <;> intro h <;> exact absurd (Option.some.inj h) (by decide)

theorem goodItem_setProcessed (now : String) (tr : TextractResult) (en : String) (it : Item) :
    goodItem (setProcessedExpr now tr en it) := by
  constructor <;> intro h
  · exact ⟨rfl, rfl⟩
  · exact absurd (Option.some.inj h) (by decide)

theorem goodItem_setError (msg : String) (it : Item) : goodItem (setErrorExpr msg it) := by
  constructor <;> intro h
  · exact absurd (Option.some.inj h) (by decide)
  · rfl

theorem FieldsInv_putItem (t : Table) (i : String) (it : Item)
    (ht : FieldsInv t) (hit : goodItem it) : FieldsInv (putItem t i it) := by
  intro j itj hj
  rw [getItem_putItem] at hj
  by_cases hij : i = j
  · rw [if_pos hij] at hj
    cases hj
    exact hit
  · rw [if_neg hij] at hj
    exact ht j itj hj

theorem FieldsInv_updateItem (t : Table) (i : String) (f : Item → Item)
    (ht : FieldsInv t) (hf : ∀ it, goodItem (f it)) : FieldsInv (updateItem t i f) := by
  intro j itj hj
  rw [getItem_updateItem] at hj
  by_cases hij : i = j
  · rw [if_pos hij] at hj
    cases hj
    exact hf _
  · rw [if_neg hij] at hj
    exact ht j itj hj

theorem FieldsInv_putNew (t : Table) (m : DocumentMetadata)
    (ht : FieldsInv t) (hm : m.status = "UPLOADED") :
    FieldsInv (putNewDocumentRecord t m) := by
  unfold putNewDocumentRecord
  refine FieldsInv_putItem _ _ _ ht ?_
  constructor <;> intro hh <;> rw [hm] at hh <;>
    exact absurd (Option.some.inj hh) (by decide)

/-- A gatekeeper call either changes nothing in the table and write log, or
(the identity was absent) creates the `UPLOADED` record and logs exactly one
`UPLOADED` write. -/
theorem processRecord_cases (d : GkDeps) (rawKey : String) (s : SysState) :
    ((processRecord d rawKey s).table = s.table ∧
      (processRecord d rawKey s).log = s.log) ∨
    (checkIfDocumentExists s.table (deriveDocumentId (decodeKey rawKey) d.uuid) = false ∧
      (processRecord d rawKey s).table =
        putNewDocumentRecord s.table
          ⟨deriveDocumentId (decodeKey rawKey) d.uuid, decodeKey rawKey, "UPLOADED", d.now⟩ ∧
      (processRecord d rawKey s).log =
        s.log ++ [(deriveDocumentId (decodeKey rawKey) d.uuid, "UPLOADED")]) := by
  cases hck : d.checkOk <;> cases hpt : d.putOk <;> cases hsq : d.sqsOk <;>
    cases he : checkIfDocumentExists s.table (deriveDocumentId (decodeKey rawKey) d.uuid) <;>
      simp [processRecord, hck, hpt, hsq, he]

theorem FieldsInv_processRecord (d : GkDeps) (rawKey : String) (s : SysState)
    (h : FieldsInv s.table) : FieldsInv (processRecord d rawKey s).table := by
  rcases processRecord_cases d rawKey s with ⟨ht, _⟩ | ⟨_, ht, _⟩ <;> rw [ht]
  · exact h
  · exact FieldsInv_putNew _ _ h rfl

theorem FieldsInv_worker (check : Bool) (d : WorkerDeps) (i k : String) (t : Table)
    (h : FieldsInv t) (out : WorkerOut)
    (hout : processingHandler check d i k t = .ok out) : FieldsInv out.table := by
  obtain ⟨out', hout', hcases⟩ := worker_cases check d i k t
  rw [hout] at hout'
  cases hout'
  rcases hcases with ⟨h1, _⟩ | ⟨m, h1, _⟩ | ⟨h1, _⟩ | ⟨m, h1, _⟩ | ⟨tr, en, h1, _⟩ <;> rw [h1]
  · exact h
  · exact FieldsInv_updateItem _ _ _ h (goodItem_setError m)
  · exact FieldsInv_updateItem _ _ _ h goodItem_setProcessing
  · exact FieldsInv_updateItem _ _ _
      (FieldsInv_updateItem _ _ _ h goodItem_setProcessing) (goodItem_setError m)
  · exact FieldsInv_updateItem _ _ _
      (FieldsInv_updateItem _ _ _ h goodItem_setProcessing) (goodItem_setProcessed d.nowIso tr en)

theorem FieldsInv_stepSys (s : SysState) (a : Action) (h : FieldsInv s.table) :
    FieldsInv (stepSys s a).table := by
  cases a with
  | ingest d rawKey => exact FieldsInv_processRecord d rawKey s h
  | work check d i k =>
    simp only [stepSys]
    cases hr : processingHandler check d i k s.table with
    | ok out => exact FieldsInv_worker check d i k s.table h out hr
    | error e => exact h

theorem FieldsInv_runSys (acts : List Action) : FieldsInv (runSys acts).table := by
  unfold runSys
  suffices hgen : ∀ s : SysState, FieldsInv s.table → FieldsInv (acts.foldl stepSys s).table by
    refine hgen {} ?_
    intro j it hj
    simp [getItem] at hj
  induction acts with
  | nil => exact fun s hs => hs
  | cons a rest ih => exact fun s hs => ih _ (FieldsInv_stepSys s a hs)

/-- Claim C5 (counterexample).  After ingest, a failed worker run, and a
successful redelivered worker run, the record of `doc-123` is `PROCESSED`
yet still carries the `errorMessage` of the failed attempt (the `PROCESSED`
update never clears it): `errorMessage` is populated while the status is
not `ERROR`, refuting the claimed iff at a reachable state. -/
theorem c5_stale_error_message :
    getItem (runSys exTrace).table "doc-123" = some exFinalItem ∧
    exFinalItem.status = some "PROCESSED" ∧
    exFinalItem.errorMessage.isSome = true ∧
    exFinalItem.status ≠ some "ERROR" := by
  refine ⟨by rfl, rfl, rfl, by decide⟩

/-- Claim C5 (amended).  At every reachable state, only the forward
implications hold: a `PROCESSED` record always carries `extractionResult`
(`textractData`) and `entities` (`comprehendEntities`), and an `ERROR`
record always carries `errorMessage`; the converses fail because terminal
writes never clear the other side's stale fields. -/
theorem c5_terminal_fields (acts : List Action) (documentId : String) (it : Item)
    (h : getItem (runSys acts).table documentId = some it) :
    (it.status = some "PROCESSED" → it.textractData.isSome ∧ it.comprehendEntities.isSome) ∧
    (it.status = some "ERROR" → it.errorMessage.isSome) :=
  FieldsInv_runSys acts documentId it h

/-- Claim C5 witness: the amended theorem applied to the reprocessing
history. -/
theorem c5_terminal_fields_witness :
    getItem (runSys exTrace).table "doc-123" = some exFinalItem ∧
    ((exFinalItem.status = some "PROCESSED" →
        exFinalItem.textractData.isSome ∧ exFinalItem.comprehendEntities.isSome) ∧
      (exFinalItem.status = some "ERROR" → exFinalItem.errorMessage.isSome)) :=
  ⟨by rfl, c5_terminal_fields exTrace "doc-123" exFinalItem (by rfl)⟩

/-! ### Claim C2 -/

theorem docLog_append (l1 l2 : List (String × String)) (i : String) :
    docLog (l1 ++ l2) i = docLog l1 i ++ docLog l2 i := by
  simp [docLog, List.filter_append]

theorem docLog_writes_self (i : String) (ws : List String) :
    docLog (ws.map (fun w => (i, w))) i = ws := by
  induction ws with
  | nil => rfl
  | cons w rest ih =>
    unfold docLog at ih ⊢
    simp [List.filter_cons, ih]

theorem docLog_writes_ne (i j : String) (ws : List String) (h : i ≠ j) :
    docLog (ws.map (fun w => (i, w))) j = [] := by
  induction ws with
  | nil => rfl
  | cons w rest ih =>
    simp only [List.map_cons, docLog, List.filter_cons] at ih ⊢
    simp only [decide_eq_true_eq] at ih ⊢
    rw [if_neg h]
    exact ih

theorem mem_tail_append {a : String} {l w : List String} (h : a ∈ (l ++ w).tail) :
    a ∈ l.tail ∨ a ∈ w := by
  cases l with
  | nil => exact Or.inr (List.mem_of_mem_tail h)
  | cons x l =>
    rcases List.mem_append.mp (by simpa using h) with h1 | h2
    · exact Or.inl (by simpa using h1)
    · exact Or.inr h2

theorem not_mem_of_dropLast_getLast {a : String} {l : List String}
    (h1 : a ∉ l.dropLast) (h2 : l.getLast? ≠ some a) : a ∉ l := by
  intro hm
  have hne : l ≠ [] := by rintro rfl; simp at hm
  rw [← List.dropLast_append_getLast hne] at hm
  rcases List.mem_append.mp hm with h | h
  · exact h1 h
  · rw [List.mem_singleton] at h
    exact h2 (by rw [List.getLast?_eq_getLast l hne, h])

/-- The forward-only invariant for one document: `UPLOADED` is only ever
the first durable write, `PROCESSED` only ever the last, the record exists
exactly when some write happened, and the record's status is the last
written value. -/
def SeqInvDoc (t : Table) (log : List (String × String)) (documentId : String) : Prop :=
  "UPLOADED" ∉ (docLog log documentId).tail ∧
  "PROCESSED" ∉ (docLog log documentId).dropLast ∧
  (getItem t documentId = none → docLog log documentId = []) ∧
  (∀ it, getItem t documentId = some it →
    docLog log documentId ≠ [] ∧ it.status = (docLog log documentId).getLast?)

/-- The forward-only invariant over the whole state. -/
def SeqInv (s : SysState) : Prop := ∀ documentId, SeqInvDoc s.table s.log documentId

theorem SeqInv_processRecord (d : GkDeps) (rawKey : String) (s : SysState)
    (h : SeqInv s) : SeqInv (processRecord d rawKey s) := by
  rcases processRecord_cases d rawKey s with ⟨ht, hl⟩ | ⟨hno, ht, hl⟩
  · intro j
    rw [SeqInvDoc, ht, hl]
    exact h j
  · intro j
    rw [SeqInvDoc, ht, hl]
    unfold putNewDocumentRecord
    obtain ⟨H1, H2, H3, H4⟩ := h j
    by_cases hj : deriveDocumentId (decodeKey rawKey) d.uuid = j
    · subst hj
      have hnone : getItem s.table (deriveDocumentId (decodeKey rawKey) d.uuid) = none := by
        unfold checkIfDocumentExists at hno
        cases hg : getItem s.table (deriveDocumentId (decodeKey rawKey) d.uuid) with
        | none => rfl
        | some it => rw [hg] at hno; simp at hno
      have hsq : docLog s.log (deriveDocumentId (decodeKey rawKey) d.uuid) = [] := H3 hnone
      rw [docLog_append, hsq]
      refine ⟨by simp [docLog], by simp [docLog], ?_, ?_⟩
      · intro hg
        rw [getItem_putItem] at hg
        simp at hg
      · intro it hg
        rw [getItem_putItem, if_pos rfl] at hg
        cases hg
        simp [docLog]
    · rw [docLog_append]
      have hlog : docLog [(deriveDocumentId (decodeKey rawKey) d.uuid, "UPLOADED")] j = [] := by
        simp [docLog, hj]
      rw [hlog, List.append_nil]
      rw [getItem_putItem, if_neg hj]
      exact ⟨H1, H2, H3, H4⟩

/-- Preservation of the per-document invariant by one re-checking worker
invocation whose idempotency read succeeds. -/
theorem SeqInv_stepWork (s : SysState) (d : WorkerDeps) (i k : String)
    (hg : d.getOk = .ok ()) (h : SeqInv s) :
    SeqInv (stepSys s (.work true d i k)) := by
  simp only [stepSys]
  by_cases hp : statusIsProcessed s.table i = true
  · obtain ⟨out, hout, htab, _, _, _, _, hw⟩ := worker_skip d i k s.table hg hp
    rw [hout]
    intro j
    obtain ⟨H1, H2, H3, H4⟩ := h j
    rw [SeqInvDoc]
    simp only [htab, hw, List.map_nil, List.append_nil]
    exact ⟨H1, H2, H3, H4⟩
  · rw [Bool.not_eq_true] at hp
    obtain ⟨out, hout, hcases⟩ := worker_cases true d i k s.table
    rw [hout]
    intro j
    obtain ⟨H1, H2, H3, H4⟩ := h j
    by_cases hj : i = j
    · subst hj
      -- facts about the existing sequence
      have hPnot : "PROCESSED" ∉ docLog s.log i := by
        cases hgi : getItem s.table i with
        | none => rw [H3 hgi]; simp
        | some it =>
          obtain ⟨hne, hlast⟩ := H4 it hgi
          refine not_mem_of_dropLast_getLast H2 ?_
          rw [← hlast]
          intro hst
          have hp' : (it.status == some "PROCESSED") = false := by
            unfold statusIsProcessed at hp
            rw [hgi] at hp
            simpa using hp
          rw [hst] at hp'
          simp at hp'
      simp only [SeqInvDoc, docLog_append, docLog_writes_self]
      rcases hcases with ⟨ht, hw⟩ | ⟨m, ht, hw⟩ | ⟨ht, hw⟩ | ⟨m, ht, hw⟩ | ⟨tr, en, ht, hw⟩ <;>
        rw [ht, hw]
      · -- no write
        simpa using ⟨H1, H2, H3, H4⟩
      · -- ["ERROR"]
        refine ⟨?_, ?_, ?_, ?_⟩
        · intro hm
          rcases mem_tail_append hm with hm1 | hm2
          · exact H1 hm1
          · simp at hm2
        · rw [List.dropLast_concat]
          exact fun hm => hPnot hm
        · intro hg2
          rw [getItem_updateItem_self] at hg2
          simp at hg2
        · intro it hg2
          rw [getItem_updateItem_self] at hg2
          cases hg2
          exact ⟨by simp, by rw [List.getLast?_concat]; rfl⟩
      · -- ["PROCESSING"]
        refine ⟨?_, ?_, ?_, ?_⟩
        · intro hm
          rcases mem_tail_append hm with hm1 | hm2
          · exact H1 hm1
          · simp at hm2
        · rw [List.dropLast_concat]
          exact fun hm => hPnot hm
        · intro hg2
          rw [getItem_updateItem_self] at hg2
          simp at hg2
        · intro it hg2
          rw [getItem_updateItem_self] at hg2
          cases hg2
          exact ⟨by simp, by rw [List.getLast?_concat]; rfl⟩
      · -- ["PROCESSING", "ERROR"]
        refine ⟨?_, ?_, ?_, ?_⟩
        · intro hm
          rcases mem_tail_append hm with hm1 | hm2
          · exact H1 hm1
          · simp at hm2
        · rw [show docLog s.log i ++ ["PROCESSING", "ERROR"] =
            (docLog s.log i ++ ["PROCESSING"]) ++ ["ERROR"] by simp,
            List.dropLast_concat]
          intro hm
          rcases List.mem_append.mp hm with hm1 | hm2
          · exact hPnot hm1
          · simp at hm2
        · intro hg2
          rw [getItem_updateItem_self] at hg2
          simp at hg2
        · intro it hg2
          rw [getItem_updateItem_self] at hg2
          cases hg2
          refine ⟨by simp, ?_⟩
          rw [show docLog s.log i ++ ["PROCESSING", "ERROR"] =
            (docLog s.log i ++ ["PROCESSING"]) ++ ["ERROR"] by simp,
            List.getLast?_concat]
          rfl
      · -- ["PROCESSING", "PROCESSED"]
        refine ⟨?_, ?_, ?_, ?_⟩
        · intro hm
          rcases mem_tail_append hm with hm1 | hm2
          · exact H1 hm1
          · simp at hm2
        · rw [show docLog s.log i ++ ["PROCESSING", "PROCESSED"] =
            (docLog s.log i ++ ["PROCESSING"]) ++ ["PROCESSED"] by simp,
            List.dropLast_concat]
          intro hm
          rcases List.mem_append.mp hm with hm1 | hm2
          · exact hPnot hm1
          · simp at hm2
        · intro hg2
          rw [getItem_updateItem_self] at hg2
          simp at hg2
        · intro it hg2
          rw [getItem_updateItem_self] at hg2
          cases hg2
          refine ⟨by simp, ?_⟩
          rw [show docLog s.log i ++ ["PROCESSING", "PROCESSED"] =
            (docLog s.log i ++ ["PROCESSING"]) ++ ["PROCESSED"] by simp,
            List.getLast?_concat]
          rfl
    · -- frame: a different document is untouched
      have hft : getItem out.table j = getItem s.table j := by
        rcases hcases with ⟨ht, _⟩ | ⟨m, ht, _⟩ | ⟨ht, _⟩ | ⟨m, ht, _⟩ | ⟨tr, en, ht, _⟩ <;>
          rw [ht] <;> simp [getItem_updateItem_ne _ _ _ _ hj]
      rw [SeqInvDoc, docLog_append, docLog_writes_ne i j _ hj, List.append_nil, hft]
      exact ⟨H1, H2, H3, H4⟩

theorem SeqInv_stepSys (s : SysState) (a : Action) (ha : workerChecked a = true)
    (h : SeqInv s) : SeqInv (stepSys s a) := by
  cases a with
  | ingest d rawKey => exact SeqInv_processRecord d rawKey s h
  | work check d i k =>
    unfold workerChecked at ha
    rw [Bool.and_eq_true] at ha
    obtain ⟨hc, hg⟩ := ha
    subst hc
    have hgok : d.getOk = .ok () := by
      cases hgo : d.getOk with
      | ok v => cases v; rfl
      | error e => rw [hgo] at hg; simp at hg
    exact SeqInv_stepWork s d i k hgok h

theorem SeqInv_runSys (acts : List Action)
    (hall : ∀ a ∈ acts, workerChecked a = true) : SeqInv (runSys acts) := by
  unfold runSys
  suffices hgen : ∀ s : SysState, SeqInv s →
      SeqInv (acts.foldl stepSys s) by
    refine hgen {} ?_
    intro j
    refine ⟨by simp [docLog], by simp [docLog], fun _ => rfl, ?_⟩
    intro it hg
    simp [getItem] at hg
  induction acts with
  | nil => exact fun s hs => hs
  | cons a rest ih =>
    intro s hs
    exact ih (fun a ha => hall a (List.mem_cons_of_mem _ ha)) _
      (SeqInv_stepSys s a (hall a (List.mem_cons_self _ _)) hs)

/-- Claim C2 (counterexample).  The concrete history of `exTrace`
(ingest; worker run with OCR failure; successful redelivered worker run,
all with the idempotency re-check) produces the durable status-write
sequence `UPLOADED, PROCESSING, ERROR, PROCESSING, PROCESSED` for
`doc-123`, which is a subsequence of neither
`UPLOADED, PROCESSING, PROCESSED` nor `UPLOADED, PROCESSING, ERROR`:
`ERROR` is not terminal — the redelivered worker re-enters `PROCESSING`
and overwrites it. -/
theorem c2_error_not_terminal :
    statusSeq (runSys exTrace) "doc-123" =
      ["UPLOADED", "PROCESSING", "ERROR", "PROCESSING", "PROCESSED"] ∧
    isSubseqOf (statusSeq (runSys exTrace) "doc-123")
      ["UPLOADED", "PROCESSING", "PROCESSED"] = false ∧
    isSubseqOf (statusSeq (runSys exTrace) "doc-123")
      ["UPLOADED", "PROCESSING", "ERROR"] = false := by
  refine ⟨by rfl, by rfl, by rfl⟩

/-- Claim C2 (amended).  Over any sequential history of gatekeeper
invocations and re-checking worker invocations whose idempotency reads
succeed: no durable write ever re-enters `UPLOADED` (it can only be a
record's first write), and no write ever follows a `PROCESSED` write
(`PROCESSED` can only be the last).  `ERROR`, however, is not terminal: a
redelivered invocation may follow it with `PROCESSING` (see the
counterexample). -/
theorem c2_forward_only (acts : List Action)
    (hall : ∀ a ∈ acts, workerChecked a = true) (documentId : String) :
    "UPLOADED" ∉ (statusSeq (runSys acts) documentId).tail ∧
    "PROCESSED" ∉ (statusSeq (runSys acts) documentId).dropLast :=
  ⟨(SeqInv_runSys acts hall documentId).1, (SeqInv_runSys acts hall documentId).2.1⟩

/-- Claim C2 witness: the amended theorem applied to the reprocessing
history. -/
theorem c2_forward_only_witness :
    (∀ a ∈ exTrace, workerChecked a = true) ∧
    ("UPLOADED" ∉ (statusSeq (runSys exTrace) "doc-123").tail ∧
      "PROCESSED" ∉ (statusSeq (runSys exTrace) "doc-123").dropLast) :=
  ⟨by decide, c2_forward_only exTrace (by decide) "doc-123"⟩

end IDP
